import Mathlib

/-!
Shallow embedding of the `eu-ge-ne/puppeteer-pool` pool core
(`src/puppeteerPool.ts`, `src/poolItem.ts` with its `AcquireQueue`,
`src/closeQueue.ts`, `src/asyncSerial.ts`).

Modelling conventions:
* Pages (lightweight resources), browsers (heavy resources), request ids and
  page-option metadata are opaque handles, modelled as `Nat` identifiers.
* JS numbers that the code only ever keeps non-negative are `Nat`; optional
  configuration fields are `Option Int` so that negative configured values are
  representable.  `NaN` (which arises from `0 / 0`) is modelled as `none`.
* Timestamps (`Date.now()`) are explicit `Nat` parameters; the clock is assumed
  monotone, so elapsed times `now - started` use truncated subtraction.
* The `AsyncSerial` runner defers `processQueues` executions (`setImmediate`)
  and serialises them; a reconciliation pass is therefore modelled as a
  separate atomic step (`Op.runQueues`) that the scheduler may interleave
  anywhere between `acquire` / `close` / `closeAll` / timer-fire steps.
* `setTimeout` timers are modelled by the `armed` list of an `AcquireQueue`:
  a timer is armed exactly while its closure may still fire; `clearTimeout`
  removes it, and firing consumes it.
* The external factory (`puppeteer.launch`, `browser.newPage`) is opaque and
  assumed to succeed; on failure the pass aborts without allocating, which the
  claims under study do not exercise.
-/

namespace PuppeteerPoolModel

/-- JS `Array.prototype.findIndex`: index of the first element satisfying `p`,
or `-1` when there is none. -/
def jsFindIndex (p : α → Bool) : List α → Int
  | [] => -1
  | x :: xs =>
    if p x then 0
    else
      let r := jsFindIndex p xs
      if r < 0 then -1 else r + 1

/-- JS `arr.splice(i, 1)` where `i = arr.findIndex(p) ≥ 0`: removes the first
element satisfying `p`; identity when none does (matching the guarded
`if (i >= 0) splice(i, 1)` uses in the source). -/
def jsRemoveFirst (p : α → Bool) : List α → List α
  | [] => []
  | x :: xs => if p x then xs else x :: jsRemoveFirst p xs

/-- Pool `Options` (src/puppeteerPool.ts).  Only the fields the core state
machine reads are modelled; `launch` / `launchOptions` are the opaque external
factory.  Absent fields are `none` (JS `undefined`). -/
structure Options where
  concurrency : Option Int
  acquireTimeout : Option Int
deriving Repr, DecidableEq

/-- `const CONCURRENCY_DEFAULT = 1`. -/
def CONCURRENCY_DEFAULT : Int := 1

/-- `const ACQUIRE_TIMEOUT_DEFAULT = 30_000`. -/
def ACQUIRE_TIMEOUT_DEFAULT : Int := 30000

/-- The `concurrency` getter:
`Math.max(CONCURRENCY_DEFAULT, this.options?.concurrency ?? 0)`.
The result is ≥ 1, hence returned as `Nat`. -/
def Options.concurrencyVal (o : Options) : Nat :=
  (max CONCURRENCY_DEFAULT (o.concurrency.getD 0)).toNat

/-- The `acquireTimeout` getter:
`Math.max(0, this.options?.acquireTimeout ?? ACQUIRE_TIMEOUT_DEFAULT)`. -/
def Options.acquireTimeoutVal (o : Options) : Nat :=
  (max 0 (o.acquireTimeout.getD ACQUIRE_TIMEOUT_DEFAULT)).toNat

/-- `PoolItem` (src/poolItem.ts): bookkeeping for one heavy resource.
`concurrency` is the value passed to the constructor; `counter` is the total
number of pages ever opened; `pages` the currently active pages. -/
structure PoolItem where
  id : Nat
  pages : List Nat
  counter : Nat
  concurrency : Nat
  browser : Nat
deriving Repr, DecidableEq, Inhabited

/-- `addPage(page)`: `this.pages.push(page); this.counter += 1;` — no check of
any kind; the method cannot fail. -/
def PoolItem.addPage (it : PoolItem) (page : Nat) : PoolItem :=
  { it with pages := it.pages ++ [page], counter := it.counter + 1 }

/-- `findPageIndex(page)`: `this.pages.findIndex(x => x === page)`. -/
def PoolItem.findPageIndex (it : PoolItem) (page : Nat) : Int :=
  jsFindIndex (fun x => x = page) it.pages

/-- `removePage(page)`: throws `"Page not found"` when `findPageIndex < 0`,
otherwise `splice`s the found index out. -/
def PoolItem.removePage (it : PoolItem) (page : Nat) : Except String PoolItem :=
  if it.findPageIndex page < 0 then .error "Page not found"
  else .ok { it with pages := jsRemoveFirst (fun x => x = page) it.pages }

/-- `removeAllPages()`: returns the pages and empties the list. -/
def PoolItem.removeAllPages (it : PoolItem) : List Nat × PoolItem :=
  (it.pages, { it with pages := [] })

/-- `get active()`: `this.pages.length`. -/
def PoolItem.active (it : PoolItem) : Nat :=
  it.pages.length

/-- `get isExhausted()`: `this.counter >= this.concurrency`. -/
def PoolItem.isExhausted (it : PoolItem) : Bool :=
  it.concurrency ≤ it.counter

/-- Observable events: promise settlements, emitter notifications and resource
teardowns, in the order they occur. -/
inductive Event where
  /-- `item.resolve(page)`: the acquire promise of request `reqId` fulfils. -/
  | resolvedReq (reqId page : Nat)
  /-- `reject(new Error(...))` from the deadline timer, carrying the
  configured `acquireTimeout` value. -/
  | rejectedReq (reqId acquireTimeout : Nat)
  /-- `emit("after_acquire", page, pageOpts)`. -/
  | afterAcquire (page pageOpts : Nat)
  /-- `emit("after_close", page)`. -/
  | afterClose (page : Nat)
  /-- `page.close()` completed (lightweight teardown). -/
  | pageClosed (page : Nat)
  /-- `browser.close()` completed (heavy teardown). -/
  | browserClosed (browser : Nat)
deriving Repr, DecidableEq

/-- Whether an event is a lightweight-resource teardown. -/
def Event.isLightTeardown : Event → Bool
  | .pageClosed _ => true
  | _ => false

/-- Whether an event is a heavy-resource teardown. -/
def Event.isHeavyTeardown : Event → Bool
  | .browserClosed _ => true
  | _ => false

/-- One pending acquire request (`AcquireItem` of src/acquireQueue.ts):
`started` is its `Date.now()` at enqueue time; `pageOpts` its metadata.
`resolve` / `reject` / `timeout` are represented by `reqId` identity together
with the queue's `armed` timer list. -/
structure AcquireItem where
  reqId : Nat
  started : Nat
  pageOpts : Nat
deriving Repr, DecidableEq

/-- `AcquireQueue` (src/acquireQueue.ts).  `acquireTimeout` is the constructor
argument; `armed` is the set of pending `setTimeout` closures (each capturing
its item); `count` / `timeMax` / `timeTotal` are the latency statistics. -/
structure AcquireQueue where
  acquireTimeout : Nat
  queue : List AcquireItem
  armed : List AcquireItem
  count : Nat
  timeMax : Nat
  timeTotal : Nat
deriving Repr, DecidableEq

/-- `get isEmpty()`: `this.queue.length === 0`. -/
def AcquireQueue.isEmpty (q : AcquireQueue) : Bool :=
  q.queue.length = 0

/-- `addStats(started)`: `count += 1; time = Date.now() - started;
timeMax = max(timeMax, time); timeTotal += time`. -/
def AcquireQueue.addStats (q : AcquireQueue) (started now : Nat) : AcquireQueue :=
  { q with
    count := q.count + 1
    timeMax := max q.timeMax (now - started)
    timeTotal := q.timeTotal + (now - started) }

/-- `add(resolve, reject, pageOpts)`: builds the item (with `started =
Date.now()`), arms its deadline timer, and pushes it onto the queue. -/
def AcquireQueue.add (q : AcquireQueue) (reqId now pageOpts : Nat) : AcquireQueue :=
  let item : AcquireItem := { reqId := reqId, started := now, pageOpts := pageOpts }
  { q with queue := q.queue ++ [item], armed := q.armed ++ [item] }

/-- The `setTimeout` callback armed by `add` for `item`, run at time `now`:
finds the item in the queue and splices it out if present, rejects with
`Acquire timeout: <acquireTimeout> ms`, and records the elapsed wait.  The
fired timer is consumed (removed from `armed`). -/
def AcquireQueue.timeoutHandler (q : AcquireQueue) (item : AcquireItem) (now : Nat) :
    AcquireQueue × List Event :=
  let q1 :=
    if 0 ≤ jsFindIndex (fun x => x.reqId = item.reqId) q.queue then
      { q with queue := jsRemoveFirst (fun x => x.reqId = item.reqId) q.queue }
    else q
  let q2 := { q1 with armed := jsRemoveFirst (fun x => x.reqId = item.reqId) q1.armed }
  ((q2.addStats item.started now), [.rejectedReq item.reqId q.acquireTimeout])

/-- `resolve(page)`: `shift()`s the head of the queue; if present, cancels its
deadline timer, fulfils it with `page`, emits `after_acquire`, and records the
elapsed wait. -/
def AcquireQueue.resolve (q : AcquireQueue) (page now : Nat) : AcquireQueue × List Event :=
  match q.queue with
  | [] => (q, [])
  | item :: rest =>
    let q1 := { q with
      queue := rest
      armed := jsRemoveFirst (fun x => x.reqId = item.reqId) q.armed }
    (q1.addStats item.started now,
     [.resolvedReq item.reqId page, .afterAcquire page item.pageOpts])

/-- `AcquireStats`: `mean` is `Option Nat` because JS `Math.round(0 / 0)` is
`NaN`, modelled as `none`. -/
structure AcquireStats where
  max : Nat
  mean : Option Nat
deriving Repr, DecidableEq

/-- JS `Math.round(a / b)` for non-negative integers: `NaN` (`none`) when
`b = 0`, otherwise round-half-up of `a / b`, i.e. `⌊(2a + b) / 2b⌋`. -/
def jsRoundDiv (a b : Nat) : Option Nat :=
  if b = 0 then none else some ((2 * a + b) / (2 * b))

/-- `stats()`: `{ max: timeMax, mean: Math.round(timeTotal / count) }` — note
the unguarded division by `count`. -/
def AcquireQueue.stats (q : AcquireQueue) : AcquireStats :=
  { max := q.timeMax, mean := jsRoundDiv q.timeTotal q.count }

/-- Runs a sequence of `resolve(page)` calls (each with its own timestamp),
collecting the emitted events; this is what later reconciliation passes do to
the queue when capacity frees up. -/
def runResolves (q : AcquireQueue) : List (Nat × Nat) → AcquireQueue × List Event
  | [] => (q, [])
  | (page, now) :: rest =>
    let r1 := q.resolve page now
    let r2 := runResolves r1.1 rest
    (r2.1, r1.2 ++ r2.2)

/-- Whether some event in `evs` fulfils request `rid`. -/
def resolvesReq (rid : Nat) (evs : List Event) : Bool :=
  evs.any fun e =>
    match e with
    | .resolvedReq r _ => r = rid
    | _ => false

/-- `CloseQueue` (src/closeQueue.ts): the two accumulation lists of resources
awaiting deferred teardown. -/
structure CloseQueue where
  pages : List Nat
  browsers : List Nat
deriving Repr, DecidableEq

/-- `addPage(...page)`: append-only accumulation. -/
def CloseQueue.addPage (cq : CloseQueue) (ps : List Nat) : CloseQueue :=
  { cq with pages := cq.pages ++ ps }

/-- `addBrowser(...browser)`: append-only accumulation. -/
def CloseQueue.addBrowser (cq : CloseQueue) (bs : List Nat) : CloseQueue :=
  { cq with browsers := cq.browsers ++ bs }

/-- `closeAll()`: swaps both lists out (new `add*` calls during the flush see
fresh empty lists), then awaits closing every page — each successful page
close emitting `after_close` — and only then awaits closing every browser.
The pages of one `Promise.all` batch are closed concurrently; the trace lists
them in list order, which is sound for every property stated here because the
page batch completes before the browser batch starts. -/
def CloseQueue.closeAll (cq : CloseQueue) : CloseQueue × List Event :=
  ({ pages := [], browsers := [] },
   (cq.pages.flatMap fun p => [Event.pageClosed p, Event.afterClose p])
     ++ cq.browsers.map Event.browserClosed)

/-- `PuppeteerPool` state (src/puppeteerPool.ts): the live `pool` list, the
two queues, the construction options, and the counters that hand out fresh
identities (`PoolItem.nextId`, and opaque fresh page / browser handles). -/
structure PoolState where
  options : Options
  pool : List PoolItem
  acquireQueue : AcquireQueue
  closeQueue : CloseQueue
  nextReqId : Nat
  nextPageId : Nat
  nextBrowserId : Nat
  nextItemId : Nat
deriving Repr, DecidableEq

/-- The pool's `concurrency` getter. -/
def PoolState.concurrency (s : PoolState) : Nat :=
  s.options.concurrencyVal

/-- The initial state built by the constructor: empty pool, empty queues, the
`AcquireQueue` capturing the `acquireTimeout` getter's value. -/
def initState (o : Options) : PoolState :=
  { options := o
    pool := []
    acquireQueue :=
      { acquireTimeout := o.acquireTimeoutVal
        queue := [], armed := [], count := 0, timeMax := 0, timeTotal := 0 }
    closeQueue := { pages := [], browsers := [] }
    nextReqId := 0
    nextPageId := 0
    nextBrowserId := 0
    nextItemId := 1 }

/-- The constructor body: reads the getters, builds the component objects and
returns the instance.  It contains no validation and no `throw`; the
`Except` result (always `.ok`) makes "fails at construction" statable. -/
def mkPool (o : Options) : Except String PoolState :=
  .ok (initState o)

/-- `get totalActive()`: `this.pool.reduce((sum, poolItem) => sum +
poolItem.active, 0)`. -/
def PoolState.totalActive (s : PoolState) : Nat :=
  s.pool.foldl (fun sum it => sum + it.active) 0

/-- `acquire(pageOpts)`: enqueues the request (arming its deadline timer) and
signals the runner; the deferred reconciliation pass is a separate
`Op.runQueues` step. -/
def PoolState.acquire (s : PoolState) (pageOpts now : Nat) : PoolState :=
  { s with
    acquireQueue := s.acquireQueue.add s.nextReqId now pageOpts
    nextReqId := s.nextReqId + 1 }

/-- The body of `close(page)` acting on the pool list:
`pool.findIndex(item => item.findPageIndex(page) >= 0)`, then `removePage`
on the found item, keeping it (`active > 0 || !isExhausted`) or splicing it
out and scheduling its browser.  Returns `none` when no item owns the page. -/
def closeInPool (page : Nat) : List PoolItem → Option (List PoolItem × Option Nat)
  | [] => none
  | it :: rest =>
    if 0 ≤ it.findPageIndex page then
      match it.removePage page with
      | .error _ => none
      | .ok it' =>
        if 0 < it'.active ∨ ¬ it'.isExhausted then some (it' :: rest, none)
        else some (rest, some it.browser)
    else (closeInPool page rest).map fun r => (it :: r.1, r.2)

/-- `close(page)`: throws `"Provided page does not belong to the pool"` when
no live item owns `page` (state untouched); otherwise removes the page from
its owner, schedules the page for deferred teardown, additionally retires the
owner and schedules its browser when the owner became exhausted-and-idle, and
signals the runner. -/
def PoolState.close (s : PoolState) (page : Nat) : PoolState × Option String :=
  match closeInPool page s.pool with
  | none => (s, some "Provided page does not belong to the pool")
  | some (pool', br?) =>
    let s1 := { s with pool := pool', closeQueue := s.closeQueue.addPage [page] }
    match br? with
    | none => (s1, none)
    | some b => ({ s1 with closeQueue := s1.closeQueue.addBrowser [b] }, none)

/-- `closeAll()`: for every live item, schedules all its active pages
(`removeAllPages`) and its browser for deferred teardown; empties the live
list; signals the runner. -/
def PoolState.closeAll (s : PoolState) : PoolState :=
  { s with
    pool := []
    closeQueue :=
      s.pool.foldl
        (fun cq it => (cq.addPage it.removeAllPages.1).addBrowser [it.browser])
        s.closeQueue }

/-- `this.pool.find(x => !x.isExhausted)` followed by `poolItem.addPage(page)`
on the found item: adds `page` to the first non-exhausted item, or `none` when
every item is exhausted. -/
def addPageFirstFit (page : Nat) : List PoolItem → Option (List PoolItem)
  | [] => none
  | it :: rest =>
    if it.isExhausted then (addPageFirstFit page rest).map (it :: ·)
    else some (it.addPage page :: rest)

/-- The body of one `while` iteration up to the `resolve` call: open one page
— on the first non-exhausted item if one exists, otherwise on a freshly
launched browser wrapped in a new `PoolItem` (created with the pool's
`concurrency`, starting at `counter = 0` before its first `addPage`) — and
return the new state together with the opened page. -/
def allocOne (s : PoolState) : PoolState × Nat :=
  match addPageFirstFit s.nextPageId s.pool with
  | some pool' =>
    ({ s with pool := pool', nextPageId := s.nextPageId + 1 }, s.nextPageId)
  | none =>
    let it : PoolItem :=
      { id := s.nextItemId, pages := [], counter := 0
        concurrency := s.concurrency, browser := s.nextBrowserId }
    ({ s with
        pool := s.pool ++ [it.addPage s.nextPageId]
        nextPageId := s.nextPageId + 1
        nextBrowserId := s.nextBrowserId + 1
        nextItemId := s.nextItemId + 1 }, s.nextPageId)

/-- The `while` loop of `processQueues`, with fuel: while the acquire queue is
non-empty and `totalActive < concurrency`, perform one allocation (`allocOne`)
and resolve the oldest queued request with the opened page.  The external
factory is assumed to succeed (on failure the pass would abort without
allocating and the runner would retry).  `now` stands for `Date.now()` during
the pass. -/
def processQueuesAux (now : Nat) : Nat → PoolState → PoolState × List Event
  | 0, s => (s, [])
  | fuel + 1, s =>
    if s.acquireQueue.isEmpty then (s, [])
    else if ¬ s.totalActive < s.concurrency then (s, [])
    else
      let s1 := (allocOne s).1
      let r := s1.acquireQueue.resolve (allocOne s).2 now
      let rec' := processQueuesAux now fuel { s1 with acquireQueue := r.1 }
      (rec'.1, r.2 ++ rec'.2)

/-- `processQueues()`: first flushes the close queue, then runs the allocation
loop.  The queue length bounds the number of iterations (each iteration
`shift`s one request), so it is sufficient fuel. -/
def PoolState.processQueues (s : PoolState) (now : Nat) : PoolState × List Event :=
  let flushed := s.closeQueue.closeAll
  let s0 := { s with closeQueue := flushed.1 }
  let looped := processQueuesAux now s0.acquireQueue.queue.length s0
  (looped.1, flushed.2 ++ looped.2)

/-- The external steps of the pool's state machine.  `runQueues` is one
(serialised, atomic) execution of `processQueues` scheduled by the
`AsyncSerial` runner; `fireTimeout` is the firing of an armed acquire-deadline
timer. -/
inductive Op where
  | acquire (pageOpts now : Nat)
  | close (page : Nat)
  | closeAll
  | fireTimeout (reqId now : Nat)
  | runQueues (now : Nat)
deriving Repr, DecidableEq

/-- One step of the pool state machine.  A `fireTimeout` for a timer that is
not armed (never created, already cleared, or already fired) is a no-op. -/
def execOp (s : PoolState) : Op → PoolState
  | .acquire pageOpts now => s.acquire pageOpts now
  | .close page => (s.close page).1
  | .closeAll => s.closeAll
  | .fireTimeout rid now =>
    match s.acquireQueue.armed.find? (fun x => x.reqId = rid) with
    | some item => { s with acquireQueue := (s.acquireQueue.timeoutHandler item now).1 }
    | none => s
  | .runQueues now => (s.processQueues now).1

/-- Executes a sequence of steps from a state. -/
def execOps (ops : List Op) (s : PoolState) : PoolState :=
  ops.foldl execOp s

/-- Sum of active-page counts over a pool list (the value `totalActive`'s
`reduce` computes). -/
def totalActiveL (l : List PoolItem) : Nat :=
  (l.map PoolItem.active).sum

/-! Concrete fixtures used to instantiate the verified properties. -/

/-- Fixture: options configuring concurrency 2. -/
def c1opts : Options := { concurrency := some 2, acquireTimeout := none }

/-- Fixture: three concurrent acquires, a reconciliation pass, one close and
another pass, against concurrency 2. -/
def c1ops : List Op :=
  [.acquire 0 0, .acquire 1 1, .acquire 2 2, .runQueues 5, .close 0, .runQueues 9]

/-- Fixture: a pool whose single item is exhausted (counter 2 = concurrency 2)
with one remaining active page 5. -/
def c2state : PoolState :=
  { options := { concurrency := some 2, acquireTimeout := none }
    pool := [{ id := 1, pages := [5], counter := 2, concurrency := 2, browser := 1 }]
    acquireQueue :=
      { acquireTimeout := 30000, queue := [], armed := [], count := 0, timeMax := 0, timeTotal := 0 }
    closeQueue := { pages := [], browsers := [] }
    nextReqId := 0, nextPageId := 6, nextBrowserId := 2, nextItemId := 2 }

/-- Fixture: an acquire queue holding a single request (id 0, enqueued at
time 5) with its deadline timer armed. -/
def c6queue : AcquireQueue :=
  { acquireTimeout := 100
    queue := [{ reqId := 0, started := 5, pageOpts := 3 }]
    armed := [{ reqId := 0, started := 5, pageOpts := 3 }]
    count := 0, timeMax := 0, timeTotal := 0 }

/-- Fixture: the request held by `c6queue`. -/
def c6item : AcquireItem := { reqId := 0, started := 5, pageOpts := 3 }

/-- Fixture: an acquire queue holding two requests, the older one first. -/
def c7queue : AcquireQueue :=
  { acquireTimeout := 200
    queue := [{ reqId := 4, started := 10, pageOpts := 1 }, { reqId := 5, started := 12, pageOpts := 2 }]
    armed := [{ reqId := 4, started := 10, pageOpts := 1 }, { reqId := 5, started := 12, pageOpts := 2 }]
    count := 0, timeMax := 0, timeTotal := 0 }

/-- Fixture: a pool owning only page 5, so that page 6 is foreign to it. -/
def c8state : PoolState :=
  { options := { concurrency := some 1, acquireTimeout := none }
    pool := [{ id := 1, pages := [5], counter := 1, concurrency := 1, browser := 1 }]
    acquireQueue :=
      { acquireTimeout := 30000, queue := [], armed := [], count := 0, timeMax := 0, timeTotal := 0 }
    closeQueue := { pages := [], browsers := [] }
    nextReqId := 0, nextPageId := 6, nextBrowserId := 2, nextItemId := 2 }

/-- Fixture: a pool with one live item (owning page 9) and one pending acquire
request whose deadline timer is armed. -/
def c10state : PoolState :=
  { options := { concurrency := some 1, acquireTimeout := none }
    pool := [{ id := 1, pages := [9], counter := 1, concurrency := 1, browser := 5 }]
    acquireQueue :=
      { acquireTimeout := 30000
        queue := [{ reqId := 0, started := 0, pageOpts := 0 }]
        armed := [{ reqId := 0, started := 0, pageOpts := 0 }]
        count := 0, timeMax := 0, timeTotal := 0 }
    closeQueue := { pages := [], browsers := [] }
    nextReqId := 1, nextPageId := 10, nextBrowserId := 6, nextItemId := 2 }

/-! Helper lemmas about the JS array-operation helpers. -/

theorem jsFindIndex_lt_zero_iff (p : α → Bool) (l : List α) :
    jsFindIndex p l < 0 ↔ ∀ x ∈ l, p x = false := by
  induction l with
  | nil => simp [jsFindIndex]
  | cons x xs ih =>
    simp only [jsFindIndex, List.mem_cons]
    by_cases h : p x = true
    · simp [h]
    · rw [if_neg h]
      by_cases hr : jsFindIndex p xs < 0
      · simp only [hr, if_pos]
        constructor
        · intro _ y hy
          rcases hy with rfl | hy
          · exact Bool.eq_false_iff.mpr h
          · exact (ih.mp hr) y hy
        · intro _; decide
      · rw [if_neg hr]
        constructor
        · intro habs; omega
        · intro hall
          exact absurd (ih.mpr fun y hy => hall y (Or.inr hy)) hr

theorem jsFindIndex_nonneg_iff (p : α → Bool) (l : List α) :
    0 ≤ jsFindIndex p l ↔ ∃ x ∈ l, p x = true := by
  rw [← not_lt, jsFindIndex_lt_zero_iff]
  push_neg
  simp [Bool.ne_false_iff]

theorem jsRemoveFirst_append (p : α → Bool) (pre post : List α) (it : α)
    (hpre : ∀ x ∈ pre, p x = false) (hit : p it = true) :
    jsRemoveFirst p (pre ++ it :: post) = pre ++ post := by
  induction pre with
  | nil => simp [jsRemoveFirst, hit]
  | cons x xs ih =>
    have hx : p x = false := hpre x (List.mem_cons_self x xs)
    simp only [List.cons_append, jsRemoveFirst, hx]
    rw [if_neg (by simp [hx])]
    exact congrArg (x :: ·) (ih fun y hy => hpre y (List.mem_cons_of_mem x hy))

theorem jsRemoveFirst_length (p : α → Bool) (l : List α)
    (h : ∃ x ∈ l, p x = true) :
    (jsRemoveFirst p l).length + 1 = l.length := by
  induction l with
  | nil => simp at h
  | cons x xs ih =>
    by_cases hx : p x = true
    · simp [jsRemoveFirst, hx]
    · have h' : ∃ y ∈ xs, p y = true := by
        rcases h with ⟨y, hy, hpy⟩
        rcases List.mem_cons.mp hy with rfl | hy
        · exact absurd hpy hx
        · exact ⟨y, hy, hpy⟩
      have hlen := ih h'
      simp only [jsRemoveFirst, if_neg hx, List.length_cons]
      omega

theorem jsRemoveFirst_subset (p : α → Bool) (l : List α) :
    ∀ x ∈ jsRemoveFirst p l, x ∈ l := by
  induction l with
  | nil => simp [jsRemoveFirst]
  | cons y ys ih =>
    intro x hx
    simp only [jsRemoveFirst] at hx
    by_cases hy : p y
    · rw [if_pos hy] at hx; exact List.mem_cons_of_mem y hx
    · rw [if_neg hy] at hx
      rcases List.mem_cons.mp hx with rfl | hx
      · exact List.mem_cons_self x ys
      · exact List.mem_cons_of_mem y (ih x hx)

/-- When the guard `findPageIndex(page) >= 0` holds, `removePage` succeeds and
splices out the first occurrence of the page. -/
theorem removePage_eq_ok (it : PoolItem) (page : Nat)
    (h : 0 ≤ it.findPageIndex page) :
    it.removePage page =
      .ok { it with pages := jsRemoveFirst (fun x => x = page) it.pages } := by
  simp [PoolItem.removePage, not_lt.mpr h]

/-- The effective concurrency is always at least 1. -/
theorem one_le_concurrencyVal (o : Options) : 1 ≤ o.concurrencyVal := by
  have h : (1 : Int) ≤ max CONCURRENCY_DEFAULT (o.concurrency.getD 0) :=
    le_max_left 1 _
  simpa [Options.concurrencyVal] using Int.toNat_le_toNat h

/-! ### C3 — construction with absent or sub-1 concurrency -/

/-- C3 counterexample: constructing the pool with `concurrency: 0` (a value
below 1) does not fail — the constructor performs no validation and yields a
pool instance whose effective concurrency has been clamped to 1. -/
theorem construct_with_zero_concurrency_succeeds :
    mkPool { concurrency := some 0, acquireTimeout := none } =
      .ok (initState { concurrency := some 0, acquireTimeout := none }) ∧
    (initState { concurrency := some 0, acquireTimeout := none }).concurrency = 1 := by
  constructor
  · rfl
  · decide

/-- C3 (amended): for every options value — in particular one whose
`concurrency` field is absent or below 1 — construction succeeds synchronously
(no configuration error exists), and the resulting pool's effective
concurrency is `Math.max(1, options.concurrency ?? 0)`, hence at least 1. -/
theorem construct_never_fails (o : Options) :
    mkPool o = .ok (initState o) ∧ 1 ≤ (initState o).concurrency := by
  exact ⟨rfl, one_le_concurrencyVal o⟩

/-! ### C4 — latency mean with zero samples -/

/-- C4: with zero completed acquisitions (the acquire queue of a freshly
constructed pool), `stats()` computes `Math.round(timeTotal / count)` with
`count = 0`; the division is unguarded, so the mean is `NaN` (modelled
`none`) — not the defined value 0 the specification requires. -/
theorem stats_mean_is_nan_with_zero_samples :
    ((initState { concurrency := some 1, acquireTimeout := none }).acquireQueue.stats).mean
      = none ∧
    ∀ n : Nat,
      ((initState { concurrency := some 1, acquireTimeout := none }).acquireQueue.stats).mean
        ≠ some n := by
  exact ⟨rfl, fun n => by simp [AcquireQueue.stats, initState, jsRoundDiv]⟩

/-! ### C5 — allocate on an exhausted PoolItem -/

/-- C5 counterexample: `addPage` on an already exhausted `PoolItem` does not
fail with a capacity error — it is unconditional: on this exhausted item
(counter 1 = concurrency 1) it appends the page and increments the counter. -/
theorem addPage_on_exhausted_item_appends :
    ({ id := 1, pages := [], counter := 1, concurrency := 1, browser := 1 } : PoolItem).isExhausted
      = true ∧
    ({ id := 1, pages := [], counter := 1, concurrency := 1, browser := 1 } : PoolItem).addPage 7
      = { id := 1, pages := [7], counter := 2, concurrency := 1, browser := 1 } := by
  decide

/-- C5 (amended): calling `addPage` on an exhausted `PoolItem` does not fail:
the method performs no capacity check, so it appends to the active set and
increments the allocation counter exactly as on a non-exhausted item;
exhaustion is consulted only by callers through `isExhausted`. -/
theorem addPage_unconditional (it : PoolItem) (page : Nat)
    (h : it.isExhausted = true) :
    (it.addPage page).pages = it.pages ++ [page] ∧
    (it.addPage page).counter = it.counter + 1 :=
  ⟨rfl, rfl⟩

/-- Witness for C5 (amended) at a concrete exhausted item. -/
theorem addPage_unconditional_witness :
    ({ id := 2, pages := [4], counter := 3, concurrency := 3, browser := 1 } : PoolItem).isExhausted
      = true ∧
    (({ id := 2, pages := [4], counter := 3, concurrency := 3, browser := 1 } : PoolItem).addPage 8).pages
      = [4] ++ [8] ∧
    (({ id := 2, pages := [4], counter := 3, concurrency := 3, browser := 1 } : PoolItem).addPage 8).counter
      = 3 + 1 := by
  refine ⟨by decide, ?_⟩
  exact addPage_unconditional
    { id := 2, pages := [4], counter := 3, concurrency := 3, browser := 1 } 8 (by decide)

/-! ### C7 — resolve fulfils the oldest request -/

/-- C7: `resolve(page)` always acts on the head of the queue — the oldest
request, since `add` appends at the tail: it pops that request, cancels its
deadline timer (disarms it), fulfils it with the supplied page, emits the
`after_acquire` notification with the page and the request's metadata, and
records the elapsed wait into the latency statistics. -/
theorem resolve_pops_oldest (q : AcquireQueue) (item : AcquireItem)
    (rest : List AcquireItem) (page now : Nat)
    (hq : q.queue = item :: rest) :
    (q.resolve page now).1.queue = rest ∧
    (q.resolve page now).1.armed
      = jsRemoveFirst (fun x => x.reqId = item.reqId) q.armed ∧
    (q.resolve page now).2
      = [.resolvedReq item.reqId page, .afterAcquire page item.pageOpts] ∧
    (q.resolve page now).1.count = q.count + 1 ∧
    (q.resolve page now).1.timeTotal = q.timeTotal + (now - item.started) ∧
    (q.resolve page now).1.timeMax = max q.timeMax (now - item.started) := by
  simp [AcquireQueue.resolve, hq, AcquireQueue.addStats]

/-- Witness for C7: resolving `c7queue` fulfils request 4 (the older), not
request 5. -/
theorem resolve_pops_oldest_witness :
    (c7queue.resolve 30 40).1.queue = [{ reqId := 5, started := 12, pageOpts := 2 }] ∧
    (c7queue.resolve 30 40).1.armed
      = jsRemoveFirst (fun x => x.reqId = 4) c7queue.armed ∧
    (c7queue.resolve 30 40).2 = [.resolvedReq 4 30, .afterAcquire 30 1] ∧
    (c7queue.resolve 30 40).1.count = 0 + 1 ∧
    (c7queue.resolve 30 40).1.timeTotal = 0 + (40 - 10) ∧
    (c7queue.resolve 30 40).1.timeMax = max 0 (40 - 10) :=
  resolve_pops_oldest c7queue { reqId := 4, started := 10, pageOpts := 1 }
    [{ reqId := 5, started := 12, pageOpts := 2 }] 30 40 rfl

/-! ### C8 — close on a foreign resource -/

/-- The linear scan of `close` finds no owner when no live item owns the
page. -/
theorem closeInPool_none (page : Nat) (l : List PoolItem)
    (h : ∀ it ∈ l, it.findPageIndex page < 0) :
    closeInPool page l = none := by
  induction l with
  | nil => rfl
  | cons it rest ih =>
    simp only [closeInPool]
    rw [if_neg (not_le.mpr (h it (List.mem_cons_self it rest))),
      ih fun x hx => h x (List.mem_cons_of_mem it hx)]
    rfl

/-- C8: closing a page owned by no live `PoolItem` fails with the
foreign-resource error and returns the pool state entirely unchanged (live
list, every item's pages and counters, both deferred-close lists, and the
acquire queue). -/
theorem close_foreign_page_fails_state_unchanged (s : PoolState) (page : Nat)
    (h : ∀ it ∈ s.pool, it.findPageIndex page < 0) :
    s.close page = (s, some "Provided page does not belong to the pool") := by
  simp [PoolState.close, closeInPool_none page s.pool h]

/-- Witness for C8: page 6 is foreign to `c8state` (its only item owns just
page 5), and closing it errors with the state unchanged. -/
theorem close_foreign_page_fails_state_unchanged_witness :
    ({ id := 1, pages := [5], counter := 1, concurrency := 1, browser := 1 } : PoolItem).findPageIndex 6 < 0 ∧
    c8state.close 6 = (c8state, some "Provided page does not belong to the pool") :=
  ⟨by decide, close_foreign_page_fails_state_unchanged c8state 6 (by decide)⟩

/-! ### C6 — acquire timeout semantics -/

theorem resolvesReq_append (rid : Nat) (a b : List Event) :
    resolvesReq rid (a ++ b) = (resolvesReq rid a || resolvesReq rid b) := by
  simp [resolvesReq, List.any_append]

/-- No sequence of `resolve` calls ever fulfils a request whose id is absent
from the queue. -/
theorem runResolves_never_resolves (rid : Nat) :
    ∀ (rs : List (Nat × Nat)) (q : AcquireQueue),
      (∀ x ∈ q.queue, x.reqId ≠ rid) →
      resolvesReq rid (runResolves q rs).2 = false := by
  intro rs
  induction rs with
  | nil => intro q _; rfl
  | cons pr rest ih =>
    intro q h
    obtain ⟨page, now⟩ := pr
    simp only [runResolves]
    rw [resolvesReq_append]
    cases hq : q.queue with
    | nil =>
      have hr : q.resolve page now = (q, []) := by
        simp [AcquireQueue.resolve, hq]
      rw [hr]
      simpa [resolvesReq] using ih q h
    | cons item tail =>
      have hr : q.resolve page now =
          ({ q with
              queue := tail
              armed := jsRemoveFirst (fun x => x.reqId = item.reqId) q.armed
            }.addStats item.started now,
           [.resolvedReq item.reqId page, .afterAcquire page item.pageOpts]) := by
        simp [AcquireQueue.resolve, hq]
      rw [hr]
      have hhead : item.reqId ≠ rid := h item (by rw [hq]; exact List.mem_cons_self item tail)
      have htail : ∀ x ∈ tail, x.reqId ≠ rid := fun x hx =>
        h x (by rw [hq]; exact List.mem_cons_of_mem item hx)
      have hrec := ih
        ({ q with
            queue := tail
            armed := jsRemoveFirst (fun x => x.reqId = item.reqId) q.armed
          }.addStats item.started now)
        (by simpa [AcquireQueue.addStats] using htail)
      simp only [hrec, Bool.or_false]
      simp [resolvesReq, hhead]

/-- C6: when the deadline timer of a still-queued request fires, the request
is spliced out of the queue, its promise is rejected with the timeout error
carrying the configured `acquireTimeout` value, its elapsed wait is recorded
into the latency statistics, and no sequence of later `resolve` calls (i.e.
capacity freeing up) ever fulfils it. -/
theorem timeout_rejects_and_never_resolves
    (q : AcquireQueue) (pre post : List AcquireItem) (item : AcquireItem) (now : Nat)
    (hq : q.queue = pre ++ item :: post)
    (hpre : ∀ x ∈ pre, x.reqId ≠ item.reqId)
    (hpost : ∀ x ∈ post, x.reqId ≠ item.reqId) :
    (q.timeoutHandler item now).1.queue = pre ++ post ∧
    (q.timeoutHandler item now).2 = [.rejectedReq item.reqId q.acquireTimeout] ∧
    (q.timeoutHandler item now).1.count = q.count + 1 ∧
    (q.timeoutHandler item now).1.timeTotal = q.timeTotal + (now - item.started) ∧
    (q.timeoutHandler item now).1.timeMax = max q.timeMax (now - item.started) ∧
    ∀ rs : List (Nat × Nat),
      resolvesReq item.reqId (runResolves (q.timeoutHandler item now).1 rs).2 = false := by
  have hprefalse : ∀ x ∈ pre, (fun x : AcquireItem => decide (x.reqId = item.reqId)) x = false := by
    intro x hx
    simpa using hpre x hx
  have hfound : 0 ≤ jsFindIndex (fun x => x.reqId = item.reqId) q.queue := by
    rw [jsFindIndex_nonneg_iff, hq]
    exact ⟨item, by simp, by simp⟩
  have hremove : jsRemoveFirst (fun x : AcquireItem => x.reqId = item.reqId) q.queue
      = pre ++ post := by
    rw [hq]
    exact jsRemoveFirst_append _ pre post item hprefalse (by simp)
  have hhandler : q.timeoutHandler item now =
      ({ q with
          queue := pre ++ post
          armed := jsRemoveFirst (fun x => x.reqId = item.reqId) q.armed
        }.addStats item.started now,
       [.rejectedReq item.reqId q.acquireTimeout]) := by
    simp [AcquireQueue.timeoutHandler, hfound, hremove]
  rw [hhandler]
  refine ⟨rfl, rfl, rfl, rfl, rfl, ?_⟩
  intro rs
  apply runResolves_never_resolves
  intro x hx
  simp only [AcquireQueue.addStats] at hx
  rcases List.mem_append.mp hx with hx | hx
  · exact hpre x hx
  · exact hpost x hx

/-- Witness for C6 at `c6queue`: its only request (id 0) is removed, rejected
with the configured 100 ms deadline, its 45 ms wait recorded, and not resolved
by a later resolve call. -/
theorem timeout_rejects_and_never_resolves_witness :
    (c6queue.timeoutHandler c6item 50).1.queue = [] ++ [] ∧
    (c6queue.timeoutHandler c6item 50).2 = [.rejectedReq 0 100] ∧
    (c6queue.timeoutHandler c6item 50).1.count = 0 + 1 ∧
    (c6queue.timeoutHandler c6item 50).1.timeTotal = 0 + (50 - 5) ∧
    (c6queue.timeoutHandler c6item 50).1.timeMax = max 0 (50 - 5) ∧
    resolvesReq 0 (runResolves (c6queue.timeoutHandler c6item 50).1 [(9, 60)]).2 = false := by
  obtain ⟨h1, h2, h3, h4, h5, h6⟩ :=
    timeout_rejects_and_never_resolves c6queue [] [] c6item 50 rfl
      (by intro x hx; cases hx) (by intro x hx; cases hx)
  exact ⟨h1, h2, h3, h4, h5, h6 [(9, 60)]⟩

/-! ### C9 — deferred flush: lightweight teardown before heavy teardown -/

/-- C9: a flush (`closeAll`) first atomically swaps both accumulation lists
out — the `CloseQueue` it leaves behind has fresh empty lists, so schedule
calls during the flush accumulate afresh — and in its teardown trace every
lightweight teardown occurs strictly before every heavy teardown: the awaited
page batch completes before the browser batch starts. -/
theorem flush_light_teardown_before_heavy (cq : CloseQueue) (i j : Nat)
    (hi : cq.closeAll.2[i]?.map Event.isLightTeardown = some true)
    (hj : cq.closeAll.2[j]?.map Event.isHeavyTeardown = some true) :
    cq.closeAll.1.pages = [] ∧ cq.closeAll.1.browsers = [] ∧ i < j := by
  refine ⟨rfl, rfl, ?_⟩
  have hA :
      ∀ e ∈ cq.pages.flatMap (fun p => [Event.pageClosed p, Event.afterClose p]),
        Event.isHeavyTeardown e = false := by
    intro e he
    simp only [List.mem_flatMap] at he
    obtain ⟨p, -, hm⟩ := he
    rcases List.mem_cons.mp hm with rfl | hm
    · rfl
    · rcases List.mem_cons.mp hm with rfl | hm
      · rfl
      · cases hm
  have hB : ∀ e ∈ cq.browsers.map Event.browserClosed,
      Event.isLightTeardown e = false := by
    intro e he
    simp only [List.mem_map] at he
    obtain ⟨b, -, rfl⟩ := he
    rfl
  have htrace : cq.closeAll.2 =
      cq.pages.flatMap (fun p => [Event.pageClosed p, Event.afterClose p])
        ++ cq.browsers.map Event.browserClosed := rfl
  have hiA : i <
      (cq.pages.flatMap fun p => [Event.pageClosed p, Event.afterClose p]).length := by
    by_contra hge
    push_neg at hge
    rw [htrace, List.getElem?_append_right hge] at hi
    cases hm : (cq.browsers.map Event.browserClosed)[i -
        (cq.pages.flatMap fun p => [Event.pageClosed p, Event.afterClose p]).length]? with
    | none => rw [hm] at hi; cases hi
    | some e =>
      rw [hm] at hi
      have hfalse := hB e (List.getElem?_mem hm)
      simp [hfalse] at hi
  have hjA :
      (cq.pages.flatMap fun p => [Event.pageClosed p, Event.afterClose p]).length ≤ j := by
    by_contra hlt
    push_neg at hlt
    rw [htrace, List.getElem?_append_left hlt] at hj
    cases hm : (cq.pages.flatMap fun p => [Event.pageClosed p, Event.afterClose p])[j]? with
    | none => rw [hm] at hj; cases hj
    | some e =>
      rw [hm] at hj
      have hfalse := hA e (List.getElem?_mem hm)
      simp [hfalse] at hj
  omega

/-- Witness for C9 at a queue holding page 3 and browser 4: the trace is
`[pageClosed 3, afterClose 3, browserClosed 4]`, the page teardown (index 0)
precedes the browser teardown (index 2), and both lists are swapped out. -/
theorem flush_light_teardown_before_heavy_witness :
    (CloseQueue.closeAll { pages := [3], browsers := [4] }).2[0]?.map Event.isLightTeardown
      = some true ∧
    (CloseQueue.closeAll { pages := [3], browsers := [4] }).2[2]?.map Event.isHeavyTeardown
      = some true ∧
    ((CloseQueue.closeAll { pages := [3], browsers := [4] }).1.pages = [] ∧
     (CloseQueue.closeAll { pages := [3], browsers := [4] }).1.browsers = [] ∧
     0 < 2) :=
  ⟨by decide, by decide,
   flush_light_teardown_before_heavy { pages := [3], browsers := [4] } 0 2
     (by decide) (by decide)⟩

/-! ### C2 — close retires a PoolItem iff it is exhausted and idle -/

/-- The scan of `close` acting at the first owner: keeps the mutated item when
it still has active pages or allocation headroom, otherwise splices it out and
returns its browser. -/
theorem closeInPool_append (page : Nat) (pre post : List PoolItem) (it it' : PoolItem)
    (hpre : ∀ x ∈ pre, x.findPageIndex page < 0)
    (hit : 0 ≤ it.findPageIndex page)
    (hrm : it.removePage page = .ok it') :
    closeInPool page (pre ++ it :: post) =
      if 0 < it'.active ∨ ¬ it'.isExhausted then some (pre ++ it' :: post, none)
      else some (pre ++ post, some it.browser) := by
  induction pre with
  | nil =>
    simp only [List.nil_append, closeInPool, if_pos hit, hrm]
  | cons x xs ih =>
    have hx := hpre x (List.mem_cons_self x xs)
    simp only [List.cons_append, closeInPool, List.append_eq]
    rw [if_neg (not_le.mpr hx), ih fun y hy => hpre y (List.mem_cons_of_mem x hy)]
    split <;> rfl

/-- C2: on `close(page)` where `it` is the first (and owning) live item, with
`it'` the item after releasing the page: the call succeeds, the page is always
scheduled for lightweight teardown, and the item is removed from the live list
with its browser scheduled for heavy teardown if and only if `it'` is
exhausted with an empty active set; otherwise the item stays live (as `it'`)
and no browser is scheduled. -/
theorem close_retires_iff_exhausted_and_idle (s : PoolState) (page : Nat)
    (pre post : List PoolItem) (it it' : PoolItem)
    (hs : s.pool = pre ++ it :: post)
    (hpre : ∀ x ∈ pre, x.findPageIndex page < 0)
    (hit : 0 ≤ it.findPageIndex page)
    (hrm : it.removePage page = .ok it') :
    (s.close page).2 = none ∧
    (s.close page).1.closeQueue.pages = s.closeQueue.pages ++ [page] ∧
    (((s.close page).1.pool = pre ++ post ∧
      (s.close page).1.closeQueue.browsers = s.closeQueue.browsers ++ [it.browser]) ↔
     (it'.isExhausted = true ∧ it'.pages = [])) ∧
    (¬ (it'.isExhausted = true ∧ it'.pages = []) →
      (s.close page).1.pool = pre ++ it' :: post ∧
      (s.close page).1.closeQueue.browsers = s.closeQueue.browsers) := by
  have hcp := closeInPool_append page pre post it it' hpre hit hrm
  by_cases hkeep : 0 < it'.active ∨ ¬ it'.isExhausted
  · rw [if_pos hkeep] at hcp
    have hclose : s.close page =
        ({ s with pool := pre ++ it' :: post
                  closeQueue := s.closeQueue.addPage [page] }, none) := by
      simp [PoolState.close, hs, hcp]
    rw [hclose]
    have hnotretire : ¬ (it'.isExhausted = true ∧ it'.pages = []) := by
      rintro ⟨hex, hpg⟩
      rcases hkeep with hact | hnex
      · simp [PoolItem.active, hpg] at hact
      · exact hnex hex
    refine ⟨rfl, rfl, ?_, fun _ => ⟨rfl, rfl⟩⟩
    constructor
    · rintro ⟨hpool, -⟩
      exfalso
      have := congrArg List.length hpool
      simp at this
    · intro hretire
      exact absurd hretire hnotretire
  · rw [if_neg hkeep] at hcp
    push_neg at hkeep
    obtain ⟨hact, hex'⟩ := hkeep
    have hpg : it'.pages = [] :=
      List.length_eq_zero.mp (Nat.le_zero.mp hact)
    have hclose : s.close page =
        ({ s with pool := pre ++ post
                  closeQueue := (s.closeQueue.addPage [page]).addBrowser [it.browser] }, none) := by
      simp [PoolState.close, hs, hcp]
    rw [hclose]
    exact ⟨rfl, rfl,
      ⟨fun _ => ⟨hex', hpg⟩, fun _ => ⟨rfl, rfl⟩⟩,
      fun habs => absurd ⟨hex', hpg⟩ habs⟩

/-- Witness for C2 at `c2state`: closing page 5 of its exhausted single item
(counter 2 = concurrency 2) leaves the item idle, so the item is retired and
its browser (1) scheduled along with the page. -/
theorem close_retires_iff_exhausted_and_idle_witness :
    (0 : Int) ≤ ({ id := 1, pages := [5], counter := 2, concurrency := 2, browser := 1 } : PoolItem).findPageIndex 5 ∧
    (c2state.close 5).2 = none ∧
    (c2state.close 5).1.closeQueue.pages = [] ++ [5] ∧
    (((c2state.close 5).1.pool = [] ++ [] ∧
      (c2state.close 5).1.closeQueue.browsers = [] ++ [1]) ↔
     (({ id := 1, pages := [], counter := 2, concurrency := 2, browser := 1 } : PoolItem).isExhausted = true ∧
      ({ id := 1, pages := [], counter := 2, concurrency := 2, browser := 1 } : PoolItem).pages = [])) := by
  obtain ⟨h1, h2, h3, -⟩ :=
    close_retires_iff_exhausted_and_idle c2state 5 [] []
      { id := 1, pages := [5], counter := 2, concurrency := 2, browser := 1 }
      { id := 1, pages := [], counter := 2, concurrency := 2, browser := 1 }
      rfl (by intro x hx; cases hx) (by decide) rfl
  exact ⟨by decide, h1, h2, h3⟩

/-! ### C1 — total active pages never exceed the concurrency ceiling -/

theorem totalActiveL_cons (it : PoolItem) (l : List PoolItem) :
    totalActiveL (it :: l) = it.active + totalActiveL l := by
  simp [totalActiveL]

theorem totalActiveL_append (a b : List PoolItem) :
    totalActiveL (a ++ b) = totalActiveL a + totalActiveL b := by
  simp [totalActiveL]

theorem foldl_active (l : List PoolItem) :
    ∀ n : Nat, l.foldl (fun sum it => sum + it.active) n = n + totalActiveL l := by
  induction l with
  | nil => intro n; simp [totalActiveL]
  | cons it rest ih =>
    intro n
    rw [List.foldl_cons, ih, totalActiveL_cons]
    omega

/-- The `reduce` of `totalActive` computes the sum of active counts. -/
theorem totalActive_eq (s : PoolState) : s.totalActive = totalActiveL s.pool := by
  rw [PoolState.totalActive, foldl_active]
  omega

theorem active_addPage (it : PoolItem) (page : Nat) :
    (it.addPage page).active = it.active + 1 := by
  simp [PoolItem.addPage, PoolItem.active]

/-- A successful first-fit allocation increases the total active count by
exactly one. -/
theorem totalActiveL_addPageFirstFit (page : Nat) :
    ∀ (l l' : List PoolItem), addPageFirstFit page l = some l' →
      totalActiveL l' = totalActiveL l + 1 := by
  intro l
  induction l with
  | nil => intro l' h; cases h
  | cons it rest ih =>
    intro l' h
    simp only [addPageFirstFit] at h
    by_cases hx : it.isExhausted
    · rw [if_pos (by simp [hx])] at h
      cases hr : addPageFirstFit page rest with
      | none => rw [hr] at h; cases h
      | some rest' =>
        rw [hr] at h
        simp only [Option.map] at h
        cases h
        rw [totalActiveL_cons, totalActiveL_cons, ih rest' hr]
        omega
    · rw [if_neg (by simp [Bool.not_eq_true] at hx; simp [hx])] at h
      cases h
      rw [totalActiveL_cons, totalActiveL_cons, active_addPage]
      omega

/-- A successful `close` scan decreases the total active count by exactly
one. -/
theorem totalActiveL_closeInPool (page : Nat) :
    ∀ (l l' : List PoolItem) (b : Option Nat),
      closeInPool page l = some (l', b) →
      totalActiveL l' + 1 = totalActiveL l := by
  intro l
  induction l with
  | nil => intro l' b h; cases h
  | cons it rest ih =>
    intro l' b h
    by_cases hit : 0 ≤ it.findPageIndex page
    · have hrm := removePage_eq_ok it page hit
      have hcp := closeInPool_append page [] rest it
          { it with pages := jsRemoveFirst (fun x => x = page) it.pages }
          (fun x hx => absurd hx (List.not_mem_nil x)) hit hrm
      simp only [List.nil_append] at hcp
      rw [hcp] at h
      have hlen : (jsRemoveFirst (fun x => x = page) it.pages).length + 1
          = it.pages.length := by
        apply jsRemoveFirst_length
        rw [← jsFindIndex_nonneg_iff]
        exact hit
      by_cases hC :
          0 < ({ it with pages := jsRemoveFirst (fun x => x = page) it.pages } : PoolItem).active ∨
            ¬ ({ it with pages := jsRemoveFirst (fun x => x = page) it.pages } : PoolItem).isExhausted
      · rw [if_pos hC] at h
        cases h
        rw [totalActiveL_cons, totalActiveL_cons]
        simp only [PoolItem.active] at hlen ⊢
        omega
      · rw [if_neg hC] at h
        cases h
        push_neg at hC
        obtain ⟨hact, -⟩ := hC
        have hlen0 : (jsRemoveFirst (fun x => x = page) it.pages).length = 0 :=
          Nat.le_zero.mp hact
        rw [totalActiveL_cons]
        simp only [PoolItem.active]
        omega
    · have hstep : closeInPool page (it :: rest)
          = (closeInPool page rest).map fun r => (it :: r.1, r.2) := by
        simp only [closeInPool, if_neg hit]
      rw [hstep] at h
      cases hr : closeInPool page rest with
      | none => rw [hr] at h; cases h
      | some r =>
        rw [hr] at h
        simp only [Option.map] at h
        cases h
        have hrec := ih r.1 r.2 (by rw [hr])
        rw [totalActiveL_cons, totalActiveL_cons]
        omega

theorem allocOne_options (s : PoolState) : (allocOne s).1.options = s.options := by
  cases h : addPageFirstFit s.nextPageId s.pool <;> simp [allocOne, h]

theorem allocOne_acquireQueue (s : PoolState) :
    (allocOne s).1.acquireQueue = s.acquireQueue := by
  cases h : addPageFirstFit s.nextPageId s.pool <;> simp [allocOne, h]

theorem allocOne_concurrency (s : PoolState) :
    (allocOne s).1.concurrency = s.concurrency := by
  rw [PoolState.concurrency, PoolState.concurrency, allocOne_options]

theorem allocOne_totalActive (s : PoolState) :
    (allocOne s).1.totalActive = s.totalActive + 1 := by
  rw [totalActive_eq, totalActive_eq]
  cases h : addPageFirstFit s.nextPageId s.pool with
  | none =>
    simp only [allocOne, h]
    rw [totalActiveL_append, totalActiveL_cons]
    simp [totalActiveL, PoolItem.active, PoolItem.addPage]
  | some pool' =>
    simp only [allocOne, h]
    exact totalActiveL_addPageFirstFit s.nextPageId s.pool pool' h

theorem processQueuesAux_options (now : Nat) :
    ∀ (fuel : Nat) (s : PoolState),
      (processQueuesAux now fuel s).1.options = s.options := by
  intro fuel
  induction fuel with
  | zero => intro s; rfl
  | succ n ih =>
    intro s
    simp only [processQueuesAux]
    split
    · rfl
    split
    · rfl
    rw [ih]
    exact allocOne_options s

/-- The allocation loop preserves the concurrency bound: it only allocates
while strictly below the ceiling. -/
theorem processQueuesAux_totalActive_le (now : Nat) :
    ∀ (fuel : Nat) (s : PoolState),
      s.totalActive ≤ s.concurrency →
      (processQueuesAux now fuel s).1.totalActive ≤ s.concurrency := by
  intro fuel
  induction fuel with
  | zero => intro s h; exact h
  | succ n ih =>
    intro s h
    simp only [processQueuesAux]
    split
    · exact h
    split
    · exact h
    rename_i hempty hguard
    rw [Decidable.not_not] at hguard
    have hs2tot :
        ({ (allocOne s).1 with
            acquireQueue := ((allocOne s).1.acquireQueue.resolve (allocOne s).2 now).1
          } : PoolState).totalActive = s.totalActive + 1 := by
      rw [show ({ (allocOne s).1 with
            acquireQueue := ((allocOne s).1.acquireQueue.resolve (allocOne s).2 now).1
          } : PoolState).totalActive = (allocOne s).1.totalActive from rfl]
      exact allocOne_totalActive s
    have hs2conc :
        ({ (allocOne s).1 with
            acquireQueue := ((allocOne s).1.acquireQueue.resolve (allocOne s).2 now).1
          } : PoolState).concurrency = s.concurrency := by
      rw [show ({ (allocOne s).1 with
            acquireQueue := ((allocOne s).1.acquireQueue.resolve (allocOne s).2 now).1
          } : PoolState).concurrency = (allocOne s).1.concurrency from rfl]
      exact allocOne_concurrency s
    have hrec := ih
      ({ (allocOne s).1 with
          acquireQueue := ((allocOne s).1.acquireQueue.resolve (allocOne s).2 now).1 })
      (by rw [hs2tot, hs2conc]; omega)
    rw [hs2conc] at hrec
    exact hrec

theorem close_options (s : PoolState) (page : Nat) :
    (s.close page).1.options = s.options := by
  rw [PoolState.close]
  cases h : closeInPool page s.pool with
  | none => rfl
  | some r =>
    obtain ⟨pool', b?⟩ := r
    cases b? <;> rfl

theorem execOp_options (s : PoolState) (op : Op) :
    (execOp s op).options = s.options := by
  cases op with
  | acquire pageOpts now => rfl
  | close page => exact close_options s page
  | closeAll => rfl
  | fireTimeout rid now =>
    rw [execOp]
    cases s.acquireQueue.armed.find? (fun x => x.reqId = rid) <;> rfl
  | runQueues now =>
    rw [execOp, PoolState.processQueues]
    exact processQueuesAux_options now _ _

/-- Every step of the pool state machine preserves the concurrency
invariant. -/
theorem inv_execOp (s : PoolState) (op : Op)
    (h : s.totalActive ≤ s.concurrency) :
    (execOp s op).totalActive ≤ (execOp s op).concurrency := by
  have hconc : (execOp s op).concurrency = s.concurrency := by
    rw [PoolState.concurrency, PoolState.concurrency, execOp_options]
  rw [hconc]
  cases op with
  | acquire pageOpts now => exact h
  | close page =>
    rw [totalActive_eq] at h ⊢
    rw [execOp, PoolState.close]
    cases hcp : closeInPool page s.pool with
    | none => exact h
    | some r =>
      obtain ⟨pool', b?⟩ := r
      have hdec := totalActiveL_closeInPool page s.pool pool' b? hcp
      cases b? <;> · simp only; omega
  | closeAll =>
    rw [totalActive_eq]
    have : (execOp s .closeAll).pool = [] := rfl
    rw [this]
    simp [totalActiveL]
  | fireTimeout rid now =>
    rw [execOp]
    cases s.acquireQueue.armed.find? (fun x => x.reqId = rid) <;> exact h
  | runQueues now =>
    rw [execOp, PoolState.processQueues]
    have hflush :
        ({ s with closeQueue := s.closeQueue.closeAll.1 } : PoolState).totalActive
          = s.totalActive := rfl
    have hfconc :
        ({ s with closeQueue := s.closeQueue.closeAll.1 } : PoolState).concurrency
          = s.concurrency := rfl
    have := processQueuesAux_totalActive_le now
      ({ s with closeQueue := s.closeQueue.closeAll.1 } : PoolState).acquireQueue.queue.length
      ({ s with closeQueue := s.closeQueue.closeAll.1 })
      (by rw [hflush, hfconc]; exact h)
    rw [hfconc] at this
    exact this

theorem execOps_options (ops : List Op) :
    ∀ s : PoolState, (execOps ops s).options = s.options := by
  induction ops with
  | nil => intro s; rfl
  | cons op rest ih =>
    intro s
    rw [execOps, List.foldl_cons, show List.foldl execOp (execOp s op) rest
      = execOps rest (execOp s op) from rfl, ih, execOp_options]

theorem inv_execOps (ops : List Op) :
    ∀ s : PoolState, s.totalActive ≤ s.concurrency →
      (execOps ops s).totalActive ≤ (execOps ops s).concurrency := by
  induction ops with
  | nil => intro s h; exact h
  | cons op rest ih =>
    intro s h
    rw [execOps, List.foldl_cons]
    exact ih (execOp s op) (inv_execOp s op h)

/-- C1: starting from a freshly constructed pool with configured concurrency
`c ≥ 1`, after any sequence of `acquire` / `close` / `closeAll` / timer-fire /
reconciliation steps, the total number of active pages summed over all live
`PoolItem`s never exceeds `c`: each reconciliation pass allocates only while
the queue is non-empty and the total active count is strictly below the
ceiling. -/
theorem total_active_never_exceeds_concurrency (o : Options) (c : Int) (ops : List Op)
    (hc : o.concurrency = some c) (h1 : 1 ≤ c) :
    ((execOps ops (initState o)).totalActive : Int) ≤ c := by
  have h0 : (initState o).totalActive ≤ (initState o).concurrency := by
    rw [totalActive_eq]
    simp [initState, totalActiveL]
  have hinv := inv_execOps ops (initState o) h0
  have hconc : (execOps ops (initState o)).concurrency = c.toNat := by
    rw [PoolState.concurrency, execOps_options]
    rw [show (initState o).options = o from rfl]
    rw [Options.concurrencyVal, hc]
    rw [show (some c).getD 0 = c from rfl, CONCURRENCY_DEFAULT,
      max_eq_right h1]
  rw [hconc] at hinv
  have : ((execOps ops (initState o)).totalActive : Int) ≤ (c.toNat : Int) :=
    Int.ofNat_le.mpr hinv
  rwa [Int.toNat_of_nonneg (by omega)] at this

/-- Witness for C1: three acquires, a reconciliation pass, a close and another
pass against concurrency 2 keep the total active count within 2. -/
theorem total_active_never_exceeds_concurrency_witness :
    c1opts.concurrency = some 2 ∧ (1 : Int) ≤ 2 ∧
    ((execOps c1ops (initState c1opts)).totalActive : Int) ≤ 2 :=
  ⟨rfl, by decide, total_active_never_exceeds_concurrency c1opts 2 c1ops rfl (by decide)⟩

/-! ### C10 — closeAll frame: pending acquires survive -/

/-- The accumulation loop of `closeAll` appends every removed item's active
pages and its browser, in pool order. -/
theorem closeAll_foldl (l : List PoolItem) :
    ∀ cq : CloseQueue,
      l.foldl (fun cq it => (cq.addPage it.removeAllPages.1).addBrowser [it.browser]) cq
        = { pages := cq.pages ++ l.flatMap PoolItem.pages
            browsers := cq.browsers ++ l.map PoolItem.browser } := by
  induction l with
  | nil => intro cq; simp
  | cons it rest ih =>
    intro cq
    rw [List.foldl_cons, ih]
    simp [CloseQueue.addPage, CloseQueue.addBrowser, PoolItem.removeAllPages]

/-- A reconciliation step on a state with an empty pool and a non-empty queue
resolves the oldest request with the freshly opened page `t.nextPageId`. -/
theorem processQueuesAux_resolves_head (now : Nat) (t : PoolState)
    (item : AcquireItem) (rest : List AcquireItem) (fuel : Nat)
    (hp : t.pool = [])
    (hq : t.acquireQueue.queue = item :: rest) :
    Event.resolvedReq item.reqId t.nextPageId ∈ (processQueuesAux now (fuel + 1) t).2 := by
  have hempty : ¬ t.acquireQueue.isEmpty = true := by
    simp [AcquireQueue.isEmpty, hq]
  have htot : t.totalActive = 0 := by
    rw [totalActive_eq, hp]; rfl
  have hguard : t.totalActive < t.concurrency := by
    rw [htot]
    exact lt_of_lt_of_le Nat.one_pos (one_le_concurrencyVal t.options)
  have halloc : addPageFirstFit t.nextPageId t.pool = none := by
    rw [hp]; rfl
  have haq : (allocOne t).1.acquireQueue = t.acquireQueue := allocOne_acquireQueue t
  have hpg : (allocOne t).2 = t.nextPageId := by
    simp [allocOne, halloc]
  have hr : ((allocOne t).1.acquireQueue.resolve (allocOne t).2 now).2
      = [.resolvedReq item.reqId t.nextPageId, .afterAcquire t.nextPageId item.pageOpts] := by
    rw [haq, hpg]
    simp [AcquireQueue.resolve, hq]
  simp only [processQueuesAux, if_neg hempty, if_neg (not_not_intro hguard)]
  rw [hr]
  exact List.mem_append_left _ (List.mem_cons_self _ _)

/-- C10: `closeAll` mutates only the live list (emptied) and the deferred
close queue (which accumulates every item's active pages and every browser);
everything else — in particular the acquire queue with its pending requests,
their armed deadline timers, and the latency statistics — is untouched.  A
pending request then still gets resolved by a later reconciliation pass,
which creates a fresh browser. -/
theorem closeAll_preserves_acquire_queue (s : PoolState) (item : AcquireItem)
    (rest : List AcquireItem) (now : Nat)
    (hq : s.acquireQueue.queue = item :: rest) :
    s.closeAll =
      { s with
        pool := []
        closeQueue :=
          { pages := s.closeQueue.pages ++ s.pool.flatMap PoolItem.pages
            browsers := s.closeQueue.browsers ++ s.pool.map PoolItem.browser } } ∧
    s.closeAll.acquireQueue = s.acquireQueue ∧
    Event.resolvedReq item.reqId s.nextPageId ∈ (s.closeAll.processQueues now).2 := by
  have hca : s.closeAll =
      { s with
        pool := []
        closeQueue :=
          { pages := s.closeQueue.pages ++ s.pool.flatMap PoolItem.pages
            browsers := s.closeQueue.browsers ++ s.pool.map PoolItem.browser } } := by
    rw [PoolState.closeAll, closeAll_foldl]
  refine ⟨hca, by rw [hca], ?_⟩
  rw [PoolState.processQueues]
  apply List.mem_append_right
  have ht1 : ({ s.closeAll with
      closeQueue := s.closeAll.closeQueue.closeAll.1 } : PoolState).acquireQueue.queue
      = item :: rest := by
    rw [hca]
    exact hq
  have ht2 : ({ s.closeAll with
      closeQueue := s.closeAll.closeQueue.closeAll.1 } : PoolState).pool = [] := by
    rw [hca]
  have ht3 : ({ s.closeAll with
      closeQueue := s.closeAll.closeQueue.closeAll.1 } : PoolState).nextPageId
      = s.nextPageId := by
    rw [hca]
  have hlen : ({ s.closeAll with
      closeQueue := s.closeAll.closeQueue.closeAll.1 } : PoolState).acquireQueue.queue.length
      = rest.length + 1 := by
    rw [ht1]
    rfl
  rw [hlen, ← ht3]
  exact processQueuesAux_resolves_head now _ item rest rest.length ht2 ht1

/-- Witness for C10 at `c10state`: after `closeAll` the live list is empty,
page 9 and browser 5 are scheduled, the pending request (id 0) is still
queued with its timer armed, and the next pass resolves it with fresh page
10. -/
theorem closeAll_preserves_acquire_queue_witness :
    c10state.acquireQueue.queue = [{ reqId := 0, started := 0, pageOpts := 0 }] ∧
    (c10state.closeAll =
      { c10state with
        pool := []
        closeQueue := { pages := [] ++ [9], browsers := [] ++ [5] } } ∧
     c10state.closeAll.acquireQueue = c10state.acquireQueue ∧
     Event.resolvedReq 0 10 ∈ (c10state.closeAll.processQueues 99).2) := by
  refine ⟨rfl, ?_⟩
  have h := closeAll_preserves_acquire_queue c10state
    { reqId := 0, started := 0, pageOpts := 0 } [] 99 rfl
  exact h

end PuppeteerPoolModel
